import Mathlib

/-!
Verification development for the FEOC compliance aggregation and evaluation
engine of the Solar-Calc repository.

The repository ships two divergent implementations of `evaluateFeoc` under the
same module name `feoc.js`:

* the prohibited-origin (FEOC) calculator, embedded here with suffix `4`
  (classifier, `isForeignContent`, `isFEOCCountry`, foreign/FEOC/unknown
  accumulation, `getMaxAllowedFEOCPercent`, compliance threshold check);
* the domestic-content bonus calculator, embedded here with suffix `5`
  (shorter classifier table, domestic/unknown accumulation keyed solely on
  `is_domestic`, escalating `getRequiredManufacturedDomesticPercent`,
  tri-path eligibility, three-valued overall compliance).

Modelling conventions: JavaScript finite numbers are embedded as rationals
(ℚ); `null`/`undefined`/absent fields are `Option.none`; the input items are
taken after the code's `parseNumberish` / `parseBooleanish` field parsers, so
`line_total` is the parsed `line_total ?? lineTotal` (a finite number or
null), `is_domestic` is the parsed tri-state boolean, and `origin_country`
and the text fields are the raw string-or-null values.  `items` itself is
`Option (List RawItem)`: `none` models any non-array value, which both
evaluators normalize to the empty list via `Array.isArray(items) ? items :
[]`.  Dates are epoch milliseconds (ℤ).  `Number(x.toFixed(2))` and
`Math.round` are embedded as exact rational rounding to nearest (half up).
-/

attribute [local semireducible] Rat.add Rat.mul Rat.sub Rat.inv

/-- The two regulatory cost buckets. -/
inductive Bucket where
  | steel_iron : Bucket
  | manufactured : Bucket
deriving DecidableEq, Repr

/-- One input line item, with the numeric and boolean fields already passed
through the code's `parseNumberish` / `parseBooleanish` helpers (see module
docstring). -/
structure RawItem where
  name : Option String
  type : Option String
  sku : Option String
  origin_country : Option String
  is_domestic : Option Bool
  line_total : Option ℚ
deriving DecidableEq, Repr

/-- An entry of the `feocParts` report list built by the prohibited-origin
evaluator. -/
structure FeocPart where
  name : Option String
  sku : Option String
  origin_country : Option String
  category : String
  line_total : ℚ
deriving DecidableEq, Repr

/-- JavaScript truthiness of an optional string: `null`, `undefined` and the
empty string are falsy. -/
def originTruthy : Option String → Bool
  | none => false
  | some s => !(s == "")

/-- JavaScript word character, as used by the regex `\b` word boundary:
`[A-Za-z0-9_]`. -/
def isWordChar (c : Char) : Bool :=
  c.isAlphanum || c == '_'

/-- Whether the literal keyword `kw` occurs in `t` starting at index `i` with
a word boundary on each side (all table keywords start and end with word
characters, so `\b` there means: at the text edge or next to a non-word
character). -/
def matchKeywordAt (t kw : List Char) (i : Nat) : Bool :=
  ((t.drop i).take kw.length == kw) &&
    (match t[i - 1]? with
     | some c => i == 0 || !isWordChar c
     | none => true) &&
    (match t[i + kw.length]? with
     | some c => !isWordChar c
     | none => true)

/-- Whether `kw` occurs anywhere in `t` bounded by word boundaries. -/
def hasWordBoundedKeyword (t kw : List Char) : Bool :=
  (List.range (t.length + 1)).any (matchKeywordAt t kw)

/-- Test of the alternation regex `\b(kw1|kw2|...)\b` against a text (texts
are handled as character lists; JavaScript case mapping is embedded at ASCII
granularity, which is exact for every keyword and country code involved). -/
def steelIronTest (kws : List String) (t : List Char) : Bool :=
  kws.any (fun kw => hasWordBoundedKeyword t kw.data)

/-- `toLowerCase` of a string, as a character list. -/
def lowerChars (s : String) : List Char :=
  s.data.map Char.toLower

/-- `toUpperCase` of a string, as a character list. -/
def upperChars (s : String) : List Char :=
  s.data.map Char.toUpper

/-- `trim` of a character list: drop whitespace from both ends. -/
def trimChars (l : List Char) : List Char :=
  ((l.dropWhile Char.isWhitespace).reverse.dropWhile Char.isWhitespace).reverse

/-- Keyword table of the prohibited-origin module's `steelIronRegex`. -/
def steelIronKeywords4 : List String :=
  ["rack", "racking", "rail", "mount", "mounting", "standoff", "foot",
   "clamp", "bolt", "bracket", "splice", "flashing", "base", "anchor",
   "ballast", "beam", "channel", "post", "stanchion", "fastener", "screw",
   "washer", "nut", "hardware", "stringer", "purlin", "torque tube"]

/-- Keyword table of the bonus module's `steelIronRegex`. -/
def steelIronKeywords5 : List String :=
  ["rack", "racking", "rail", "mount", "mounting", "standoff", "foot",
   "clamp", "bolt", "bracket", "splice", "flashing", "base"]

/-- `classifyFeocBucket` of the prohibited-origin module: lower-case name and
type, join them with a space, test the long keyword regex on the combined
text; default bucket is manufactured. -/
def classifyFeocBucket4 (item : RawItem) : Bucket :=
  let name := lowerChars (item.name.getD "")
  let type := lowerChars (item.type.getD "")
  let combined := name ++ ' ' :: type
  if steelIronTest steelIronKeywords4 combined then Bucket.steel_iron
  else Bucket.manufactured

/-- `classifyFeocBucket` of the bonus module: lower-case name and type, test
the short keyword regex on type and on name separately; default bucket is
manufactured. -/
def classifyFeocBucket5 (item : RawItem) : Bucket :=
  let name := lowerChars (item.name.getD "")
  let type := lowerChars (item.type.getD "")
  if steelIronTest steelIronKeywords5 type || steelIronTest steelIronKeywords5 name then
    Bucket.steel_iron
  else Bucket.manufactured

/-- The designated entity-of-concern country codes. -/
def FEOC_COUNTRIES : List String := ["CN", "RU", "KP", "IR"]

/-- `isFEOCCountry`: falsy origin is not a concern country; otherwise
upper-case, trim, and test membership in the concern set. -/
def isFEOCCountry (originCountry : Option String) : Bool :=
  if originTruthy originCountry then
    (FEOC_COUNTRIES.map String.data).contains
      (trimChars (upperChars (originCountry.getD "")))
  else false

/-- `isForeignContent`: explicitly US origin is domestic, an explicit
`is_domestic === true` is domestic, everything else (unknown origin
included) is foreign. -/
def isForeignContent (originCountry : Option String) (isDomestic : Option Bool) : Bool :=
  if originTruthy originCountry && (upperChars (originCountry.getD "") == "US".data) then false
  else if isDomestic == some true then false
  else true

/-- Helper naming the domestic test of `isForeignContent`: truthy origin that
upper-cases to the domestic country code US. -/
def usOriginB (originCountry : Option String) : Bool :=
  originTruthy originCountry && (upperChars (originCountry.getD "") == "US".data)

/-- The wholly-unknown-origin test used by the prohibited-origin accumulation
loop: falsy `origin_country` and unresolved `is_domestic`. -/
def unknownOrigin4 (originCountry : Option String) (isDomestic : Option Bool) : Bool :=
  !originTruthy originCountry && isDomestic == none

/-- `getMaxAllowedFEOCPercent`: 0 percent concern content allowed from the
2026 threshold year on, no restriction before (the non-finite-input guard of
the source is unreachable for rational years). -/
def getMaxAllowedFEOCPercent (year : ℚ) : ℚ :=
  if 2026 ≤ year then 0 else 100

/-- `getRequiredManufacturedDomesticPercent`: escalating step function of the
installation year (the non-finite-input guard of the source is unreachable
for rational years). -/
def getRequiredManufacturedDomesticPercent (year : ℚ) : ℤ :=
  if 2029 ≤ year then 55
  else if 2027 ≤ year then 50
  else if 2025 ≤ year then 45
  else 40

/-- `Number(x.toFixed(2))`: round to two decimal places. -/
def toFixed2 (q : ℚ) : ℚ :=
  (round (q * 100) : ℤ) / 100

/-- Epoch milliseconds of `new Date('2023-01-29')`, the fixed construction
cutoff date of the eligibility check. -/
def jan29_2023 : ℤ := 1674950400000

/-- Accumulator of the prohibited-origin evaluator. -/
structure Acc4 where
  steel_total : ℚ
  steel_foreign_total : ℚ
  steel_feoc_total : ℚ
  steel_unknown_total : ℚ
  manufactured_total : ℚ
  manufactured_foreign_total : ℚ
  manufactured_feoc_total : ℚ
  manufactured_unknown_total : ℚ
deriving DecidableEq, Repr

/-- The all-zero initial accumulator of the prohibited-origin evaluator. -/
def Acc4.zero : Acc4 := ⟨0, 0, 0, 0, 0, 0, 0, 0⟩

/-- One iteration of the prohibited-origin accumulation loop: skip unpriced
items, then add the line total to the item's bucket total and, guarded by
`isForeignContent`, `isFEOCCountry` and the wholly-unknown test, to the
bucket's foreign, FEOC and unknown totals. -/
def accStep4 (a : Acc4) (raw : RawItem) : Acc4 :=
  match raw.line_total with
  | none => a
  | some lineTotal =>
    let isForeign := isForeignContent raw.origin_country raw.is_domestic
    let isFeoc := isFEOCCountry raw.origin_country
    let isUnknown := unknownOrigin4 raw.origin_country raw.is_domestic
    match classifyFeocBucket4 raw with
    | Bucket.steel_iron =>
      { a with
          steel_total := a.steel_total + lineTotal
          steel_foreign_total := a.steel_foreign_total + (if isForeign then lineTotal else 0)
          steel_feoc_total := a.steel_feoc_total + (if isFeoc then lineTotal else 0)
          steel_unknown_total := a.steel_unknown_total + (if isUnknown then lineTotal else 0) }
    | Bucket.manufactured =>
      { a with
          manufactured_total := a.manufactured_total + lineTotal
          manufactured_foreign_total :=
            a.manufactured_foreign_total + (if isForeign then lineTotal else 0)
          manufactured_feoc_total :=
            a.manufactured_feoc_total + (if isFeoc then lineTotal else 0)
          manufactured_unknown_total :=
            a.manufactured_unknown_total + (if isUnknown then lineTotal else 0) }

/-- The prohibited-origin accumulation loop over an item list. -/
def acc4Of (items : List RawItem) : Acc4 :=
  items.foldl accStep4 Acc4.zero

/-- The `feocParts` report list: one entry per priced item whose origin is a
concern country, in input order (the loop pushes exactly for those items). -/
def feocPartsOf (items : List RawItem) : List FeocPart :=
  items.filterMap (fun raw =>
    match raw.line_total with
    | none => none
    | some lineTotal =>
      if isFEOCCountry raw.origin_country then
        some
          { name := raw.name
            sku := raw.sku
            origin_country := raw.origin_country
            category :=
              match classifyFeocBucket4 raw with
              | Bucket.steel_iron => "Steel/Iron"
              | Bucket.manufactured => "Manufactured Products"
            line_total := lineTotal }
      else none)

/-- Output record of the prohibited-origin evaluator (inputs echo, rounded
totals, percentages, compliance block). -/
structure FeocResult4 where
  installationYear : ℚ
  maxAllowedFEOCPercent : ℚ
  steel_total : ℚ
  steel_foreign_total : ℚ
  steel_feoc_total : ℚ
  steel_unknown_total : ℚ
  manufactured_total : ℚ
  manufactured_foreign_total : ℚ
  manufactured_feoc_total : ℚ
  manufactured_unknown_total : ℚ
  total_project_cost : ℚ
  total_foreign_cost : ℚ
  total_feoc_cost : ℚ
  steel_foreign_percent : Option ℚ
  manufactured_foreign_percent : Option ℚ
  total_foreign_percent : ℚ
  steel_feoc_percent : ℚ
  manufactured_feoc_percent : ℚ
  total_feoc_percent : ℚ
  feocCompliant : Bool
  feocDetected : Bool
  feocCountries : List (Option String)
  feocParts : Option (List FeocPart)
deriving DecidableEq, Repr

/-- Assembly of the prohibited-origin result from the accumulator, the FEOC
part list and the resolved year, exactly as the tail of the source
`evaluateFeoc`. -/
def resultOfAcc4 (a : Acc4) (parts : List FeocPart) (year : ℚ) : FeocResult4 :=
  let maxAllowed := getMaxAllowedFEOCPercent year
  let totalProjectCost := a.steel_total + a.manufactured_total
  let totalForeignCost := a.steel_foreign_total + a.manufactured_foreign_total
  let totalFeocCost := a.steel_feoc_total + a.manufactured_feoc_total
  let steelForeignPct : Option ℚ :=
    if 0 < a.steel_total then
      (if 0 < a.steel_unknown_total then none
       else some (toFixed2 (a.steel_foreign_total / a.steel_total * 100)))
    else none
  let manufacturedForeignPct : Option ℚ :=
    if 0 < a.manufactured_total then
      (if 0 < a.manufactured_unknown_total then none
       else some (toFixed2 (a.manufactured_foreign_total / a.manufactured_total * 100)))
    else none
  let totalForeignPct : ℚ :=
    if 0 < totalProjectCost then toFixed2 (totalForeignCost / totalProjectCost * 100) else 0
  let steelFeocPct : ℚ :=
    if 0 < a.steel_total then toFixed2 (a.steel_feoc_total / a.steel_total * 100) else 0
  let manufacturedFeocPct : ℚ :=
    if 0 < a.manufactured_total then
      toFixed2 (a.manufactured_feoc_total / a.manufactured_total * 100)
    else 0
  let totalFeocPct : ℚ :=
    if 0 < totalProjectCost then toFixed2 (totalFeocCost / totalProjectCost * 100) else 0
  { installationYear := year
    maxAllowedFEOCPercent := maxAllowed
    steel_total := toFixed2 a.steel_total
    steel_foreign_total := toFixed2 a.steel_foreign_total
    steel_feoc_total := toFixed2 a.steel_feoc_total
    steel_unknown_total := toFixed2 a.steel_unknown_total
    manufactured_total := toFixed2 a.manufactured_total
    manufactured_foreign_total := toFixed2 a.manufactured_foreign_total
    manufactured_feoc_total := toFixed2 a.manufactured_feoc_total
    manufactured_unknown_total := toFixed2 a.manufactured_unknown_total
    total_project_cost := toFixed2 totalProjectCost
    total_foreign_cost := toFixed2 totalForeignCost
    total_feoc_cost := toFixed2 totalFeocCost
    steel_foreign_percent := steelForeignPct
    manufactured_foreign_percent := manufacturedForeignPct
    total_foreign_percent := totalForeignPct
    steel_feoc_percent := steelFeocPct
    manufactured_feoc_percent := manufacturedFeocPct
    total_feoc_percent := totalFeocPct
    feocCompliant := decide (totalFeocPct ≤ maxAllowed)
    feocDetected := decide (0 < parts.length)
    feocCountries := (parts.map (fun p => p.origin_country)).eraseDups
    feocParts := if 0 < parts.length then some parts else none }

/-- The prohibited-origin `evaluateFeoc`: normalize a non-array item list to
the empty list, resolve the year (falling back to the current year), run the
accumulation loop and assemble the result. -/
def evaluateFeoc4 (items : Option (List RawItem)) (installationYear : Option ℚ)
    (currentYear : ℚ) : FeocResult4 :=
  let year := installationYear.getD currentYear
  let normalizedItems := items.getD []
  resultOfAcc4 (acc4Of normalizedItems) (feocPartsOf normalizedItems) year

/-- Accumulator of the domestic-content bonus evaluator. -/
structure Acc5 where
  steel_total : ℚ
  steel_domestic_total : ℚ
  steel_unknown_total : ℚ
  manufactured_total : ℚ
  manufactured_domestic_total : ℚ
  manufactured_unknown_total : ℚ
deriving DecidableEq, Repr

/-- The all-zero initial accumulator of the bonus evaluator. -/
def Acc5.zero : Acc5 := ⟨0, 0, 0, 0, 0, 0⟩

/-- One iteration of the bonus accumulation loop: skip unpriced items, add the
line total to the bucket total, to the domestic total when `is_domestic` is
explicitly true, and to the unknown total when `is_domestic` is unresolved
(the origin country is not consulted at all). -/
def accStep5 (a : Acc5) (raw : RawItem) : Acc5 :=
  match raw.line_total with
  | none => a
  | some lineTotal =>
    match classifyFeocBucket5 raw with
    | Bucket.steel_iron =>
      { a with
          steel_total := a.steel_total + lineTotal
          steel_domestic_total :=
            a.steel_domestic_total + (if raw.is_domestic == some true then lineTotal else 0)
          steel_unknown_total :=
            a.steel_unknown_total + (if raw.is_domestic == none then lineTotal else 0) }
    | Bucket.manufactured =>
      { a with
          manufactured_total := a.manufactured_total + lineTotal
          manufactured_domestic_total :=
            a.manufactured_domestic_total +
              (if raw.is_domestic == some true then lineTotal else 0)
          manufactured_unknown_total :=
            a.manufactured_unknown_total +
              (if raw.is_domestic == none then lineTotal else 0) }

/-- The bonus accumulation loop over an item list. -/
def acc5Of (items : List RawItem) : Acc5 :=
  items.foldl accStep5 Acc5.zero

/-- The three tri-state eligibility reasons. -/
structure Eligibility where
  smallProject : Option Bool
  earlyConstruction : Option Bool
  prevailingWage : Option Bool
deriving DecidableEq, Repr

/-- The eligibility reasons: project under one megawatt, construction started
before the fixed cutoff date, prevailing-wage compliance; each is null when
its input is unresolved. -/
def eligibilityOf (maxMW : Option ℚ) (constructionDate : Option ℤ)
    (wage : Option Bool) : Eligibility :=
  { smallProject :=
      match maxMW with
      | none => none
      | some mw => some (decide (mw < 1))
    earlyConstruction :=
      match constructionDate with
      | none => none
      | some d => some (decide (d < jan29_2023))
    prevailingWage := wage }

/-- The tri-path eligibility OR: true when some reason is explicitly true,
false when all three are explicitly false, null otherwise. -/
def eligibleOf (e : Eligibility) : Option Bool :=
  if e.smallProject == some true || e.earlyConstruction == some true ||
      e.prevailingWage == some true then
    some true
  else if e.smallProject == some false && e.earlyConstruction == some false &&
      e.prevailingWage == some false then
    some false
  else none

/-- The overall compliance combination of the bonus evaluator: false when any
of the steel compliance, manufactured compliance or eligibility is
explicitly false, null when none is false and some is null, true otherwise. -/
def overallFeocCompliant5 (s m e : Option Bool) : Option Bool :=
  if s == some false || m == some false || e == some false then some false
  else if s == none || m == none || e == none then none
  else some true

/-- Output record of the bonus evaluator (inputs echo, rounded totals,
percentages, compliance and eligibility blocks; the construction date is
echoed as the parsed value rather than re-serialized text). -/
structure FeocResult5 where
  installationYear : ℚ
  requiredManufacturedDomesticPercent : ℤ
  maxNetOutputMW : Option ℚ
  constructionStartDate : Option ℤ
  prevailingWageCompliant : Option Bool
  steel_total : ℚ
  steel_domestic_total : ℚ
  steel_unknown_total : ℚ
  manufactured_total : ℚ
  manufactured_domestic_total : ℚ
  manufactured_unknown_total : ℚ
  steel_domestic_percent : Option ℤ
  manufactured_domestic_percent : Option ℤ
  steelIronCompliant : Option Bool
  manufacturedProductsCompliant : Option Bool
  projectEligible : Option Bool
  feocCompliant : Option Bool
  eligible : Option Bool
  smallProject : Option Bool
  earlyConstruction : Option Bool
  prevailingWage : Option Bool
deriving DecidableEq, Repr

/-- Assembly of the bonus result from the accumulator, the resolved year and
the parsed configuration, exactly as the tail of the source `evaluateFeoc`. -/
def resultOfAcc5 (a : Acc5) (year : ℚ) (maxMW : Option ℚ)
    (constructionDate : Option ℤ) (wage : Option Bool) : FeocResult5 :=
  let requiredManufactured := getRequiredManufacturedDomesticPercent year
  let elig := eligibilityOf maxMW constructionDate wage
  let eligible := eligibleOf elig
  let steelPct : Option ℤ :=
    if 0 < a.steel_total then
      (if 0 < a.steel_unknown_total then none
       else some (round (a.steel_domestic_total / a.steel_total * 100)))
    else none
  let manufacturedPct : Option ℤ :=
    if 0 < a.manufactured_total then
      (if 0 < a.manufactured_unknown_total then none
       else some (round (a.manufactured_domestic_total / a.manufactured_total * 100)))
    else none
  let steelIronCompliant : Option Bool :=
    match steelPct with
    | none => none
    | some p => some (decide (100 ≤ p))
  let manufacturedProductsCompliant : Option Bool :=
    match manufacturedPct with
    | none => none
    | some p => some (decide (requiredManufactured ≤ p))
  { installationYear := year
    requiredManufacturedDomesticPercent := requiredManufactured
    maxNetOutputMW := maxMW
    constructionStartDate := constructionDate
    prevailingWageCompliant := wage
    steel_total := toFixed2 a.steel_total
    steel_domestic_total := toFixed2 a.steel_domestic_total
    steel_unknown_total := toFixed2 a.steel_unknown_total
    manufactured_total := toFixed2 a.manufactured_total
    manufactured_domestic_total := toFixed2 a.manufactured_domestic_total
    manufactured_unknown_total := toFixed2 a.manufactured_unknown_total
    steel_domestic_percent := steelPct
    manufactured_domestic_percent := manufacturedPct
    steelIronCompliant := steelIronCompliant
    manufacturedProductsCompliant := manufacturedProductsCompliant
    projectEligible := eligible
    feocCompliant :=
      overallFeocCompliant5 steelIronCompliant manufacturedProductsCompliant eligible
    eligible := eligible
    smallProject := elig.smallProject
    earlyConstruction := elig.earlyConstruction
    prevailingWage := elig.prevailingWage }

/-- The bonus `evaluateFeoc`: normalize a non-array item list to the empty
list, resolve the year (falling back to the current year), run the
accumulation loop and assemble the result. -/
def evaluateFeoc5 (items : Option (List RawItem)) (installationYear : Option ℚ)
    (maxNetOutputMW : Option ℚ) (constructionStartDate : Option ℤ)
    (prevailingWageCompliant : Option Bool) (currentYear : ℚ) : FeocResult5 :=
  let year := installationYear.getD currentYear
  let normalizedItems := items.getD []
  resultOfAcc5 (acc5Of normalizedItems) year maxNetOutputMW constructionStartDate
    prevailingWageCompliant

/-- Fieldwise sum of prohibited-origin accumulators. -/
def Acc4.add (a b : Acc4) : Acc4 :=
  ⟨a.steel_total + b.steel_total,
   a.steel_foreign_total + b.steel_foreign_total,
   a.steel_feoc_total + b.steel_feoc_total,
   a.steel_unknown_total + b.steel_unknown_total,
   a.manufactured_total + b.manufactured_total,
   a.manufactured_foreign_total + b.manufactured_foreign_total,
   a.manufactured_feoc_total + b.manufactured_feoc_total,
   a.manufactured_unknown_total + b.manufactured_unknown_total⟩

theorem acc4_add_zero (a : Acc4) : Acc4.add a Acc4.zero = a := by
  rcases a with ⟨s1, s2, s3, s4, m1, m2, m3, m4⟩
  simp [Acc4.add, Acc4.zero]

theorem acc4_add_assoc (a b c : Acc4) :
    Acc4.add (Acc4.add a b) c = Acc4.add a (Acc4.add b c) := by
  rcases a with ⟨s1, s2, s3, s4, m1, m2, m3, m4⟩
  rcases b with ⟨t1, t2, t3, t4, n1, n2, n3, n4⟩
  rcases c with ⟨u1, u2, u3, u4, o1, o2, o3, o4⟩
  simp [Acc4.add]
  and_intros <;> ring

theorem accStep4_eq_add (a : Acc4) (x : RawItem) :
    accStep4 a x = Acc4.add a (accStep4 Acc4.zero x) := by
  rcases a with ⟨s1, s2, s3, s4, m1, m2, m3, m4⟩
  rcases hx : x.line_total with _ | lt
  · simp [accStep4, hx, Acc4.add, Acc4.zero]
  · cases hb : classifyFeocBucket4 x <;>
      simp [accStep4, hx, hb, Acc4.add, Acc4.zero]

theorem foldl_accStep4_eq (l : List RawItem) :
    ∀ a : Acc4, l.foldl accStep4 a = Acc4.add a (acc4Of l) := by
  induction l with
  | nil => intro a; simp [acc4Of, acc4_add_zero]
  | cons x l ih =>
    intro a
    have hx : acc4Of (x :: l) = Acc4.add (accStep4 Acc4.zero x) (acc4Of l) := by
      show List.foldl accStep4 (accStep4 Acc4.zero x) l = _
      rw [ih]
    rw [List.foldl_cons, ih, hx, accStep4_eq_add a x, acc4_add_assoc]

theorem acc4Of_cons (x : RawItem) (l : List RawItem) :
    acc4Of (x :: l) = Acc4.add (accStep4 Acc4.zero x) (acc4Of l) := by
  show List.foldl accStep4 (accStep4 Acc4.zero x) l = _
  rw [foldl_accStep4_eq]

/-- Fieldwise sum of bonus accumulators. -/
def Acc5.add (a b : Acc5) : Acc5 :=
  ⟨a.steel_total + b.steel_total,
   a.steel_domestic_total + b.steel_domestic_total,
   a.steel_unknown_total + b.steel_unknown_total,
   a.manufactured_total + b.manufactured_total,
   a.manufactured_domestic_total + b.manufactured_domestic_total,
   a.manufactured_unknown_total + b.manufactured_unknown_total⟩

theorem acc5_add_zero (a : Acc5) : Acc5.add a Acc5.zero = a := by
  rcases a with ⟨s1, s2, s3, m1, m2, m3⟩
  simp [Acc5.add, Acc5.zero]

theorem acc5_add_assoc (a b c : Acc5) :
    Acc5.add (Acc5.add a b) c = Acc5.add a (Acc5.add b c) := by
  rcases a with ⟨s1, s2, s3, m1, m2, m3⟩
  rcases b with ⟨t1, t2, t3, n1, n2, n3⟩
  rcases c with ⟨u1, u2, u3, o1, o2, o3⟩
  simp [Acc5.add]
  and_intros <;> ring

theorem accStep5_eq_add (a : Acc5) (x : RawItem) :
    accStep5 a x = Acc5.add a (accStep5 Acc5.zero x) := by
  rcases a with ⟨s1, s2, s3, m1, m2, m3⟩
  rcases hx : x.line_total with _ | lt
  · simp [accStep5, hx, Acc5.add, Acc5.zero]
  · cases hb : classifyFeocBucket5 x <;>
      simp [accStep5, hx, hb, Acc5.add, Acc5.zero]

theorem foldl_accStep5_eq (l : List RawItem) :
    ∀ a : Acc5, l.foldl accStep5 a = Acc5.add a (acc5Of l) := by
  induction l with
  | nil => intro a; simp [acc5Of, acc5_add_zero]
  | cons x l ih =>
    intro a
    have hx : acc5Of (x :: l) = Acc5.add (accStep5 Acc5.zero x) (acc5Of l) := by
      show List.foldl accStep5 (accStep5 Acc5.zero x) l = _
      rw [ih]
    rw [List.foldl_cons, ih, hx, accStep5_eq_add a x, acc5_add_assoc]

theorem acc5Of_cons (x : RawItem) (l : List RawItem) :
    acc5Of (x :: l) = Acc5.add (accStep5 Acc5.zero x) (acc5Of l) := by
  show List.foldl accStep5 (accStep5 Acc5.zero x) l = _
  rw [foldl_accStep5_eq]

/-- Whether an item has a resolvable line total. -/
def priced (x : RawItem) : Bool := x.line_total.isSome

/-- Bucket tests for the two classifiers. -/
def isSteel4 (x : RawItem) : Bool := classifyFeocBucket4 x == Bucket.steel_iron

def isMan4 (x : RawItem) : Bool := classifyFeocBucket4 x == Bucket.manufactured

def isSteel5 (x : RawItem) : Bool := classifyFeocBucket5 x == Bucket.steel_iron

def isMan5 (x : RawItem) : Bool := classifyFeocBucket5 x == Bucket.manufactured

/-- The line total an item contributes to a sub-total guarded by predicate
`p` (zero when the predicate fails; unpriced items never satisfy the
predicates used below). -/
def indTerm (p : RawItem → Bool) (x : RawItem) : ℚ :=
  if p x then x.line_total.getD 0 else 0

/-- Sum of the guarded line totals over an item list. -/
def sumBy (p : RawItem → Bool) (items : List RawItem) : ℚ :=
  (items.map (indTerm p)).sum

theorem sumBy_cons (p : RawItem → Bool) (x : RawItem) (l : List RawItem) :
    sumBy p (x :: l) = indTerm p x + sumBy p l := by
  simp [sumBy]

/-- Accumulation predicates of the prohibited-origin evaluator. -/
def pSteelTotal4 (x : RawItem) : Bool := priced x && isSteel4 x

def pSteelForeign4 (x : RawItem) : Bool :=
  priced x && isSteel4 x && isForeignContent x.origin_country x.is_domestic

def pSteelFeoc4 (x : RawItem) : Bool :=
  priced x && isSteel4 x && isFEOCCountry x.origin_country

def pSteelUnknown4 (x : RawItem) : Bool :=
  priced x && isSteel4 x && unknownOrigin4 x.origin_country x.is_domestic

def pManTotal4 (x : RawItem) : Bool := priced x && isMan4 x

def pManForeign4 (x : RawItem) : Bool :=
  priced x && isMan4 x && isForeignContent x.origin_country x.is_domestic

def pManFeoc4 (x : RawItem) : Bool :=
  priced x && isMan4 x && isFEOCCountry x.origin_country

def pManUnknown4 (x : RawItem) : Bool :=
  priced x && isMan4 x && unknownOrigin4 x.origin_country x.is_domestic

/-- Cost the prohibited-origin evaluator treats as domestic: priced items
excluded from the foreign total. -/
def pSteelDomShare4 (x : RawItem) : Bool :=
  priced x && isSteel4 x && !isForeignContent x.origin_country x.is_domestic

def pManDomShare4 (x : RawItem) : Bool :=
  priced x && isMan4 x && !isForeignContent x.origin_country x.is_domestic

/-- Accumulation predicates of the bonus evaluator. -/
def pSteelTotal5 (x : RawItem) : Bool := priced x && isSteel5 x

def pSteelDom5 (x : RawItem) : Bool :=
  priced x && isSteel5 x && x.is_domestic == some true

def pSteelUnk5 (x : RawItem) : Bool :=
  priced x && isSteel5 x && x.is_domestic == none

def pSteelExpForeign5 (x : RawItem) : Bool :=
  priced x && isSteel5 x && x.is_domestic == some false

def pManTotal5 (x : RawItem) : Bool := priced x && isMan5 x

def pManDom5 (x : RawItem) : Bool :=
  priced x && isMan5 x && x.is_domestic == some true

def pManUnk5 (x : RawItem) : Bool :=
  priced x && isMan5 x && x.is_domestic == none

def pManExpForeign5 (x : RawItem) : Bool :=
  priced x && isMan5 x && x.is_domestic == some false

theorem item4_char (x : RawItem) :
    accStep4 Acc4.zero x =
      ⟨indTerm pSteelTotal4 x, indTerm pSteelForeign4 x, indTerm pSteelFeoc4 x,
       indTerm pSteelUnknown4 x, indTerm pManTotal4 x, indTerm pManForeign4 x,
       indTerm pManFeoc4 x, indTerm pManUnknown4 x⟩ := by
  rcases hx : x.line_total with _ | lt
  · simp [accStep4, hx, indTerm, pSteelTotal4, pSteelForeign4, pSteelFeoc4,
      pSteelUnknown4, pManTotal4, pManForeign4, pManFeoc4, pManUnknown4,
      priced, Acc4.zero]
  · cases hb : classifyFeocBucket4 x <;>
      simp [accStep4, hx, hb, indTerm, pSteelTotal4, pSteelForeign4, pSteelFeoc4,
        pSteelUnknown4, pManTotal4, pManForeign4, pManFeoc4, pManUnknown4,
        priced, isSteel4, isMan4, Acc4.zero]

theorem acc4_char (items : List RawItem) :
    acc4Of items =
      ⟨sumBy pSteelTotal4 items, sumBy pSteelForeign4 items, sumBy pSteelFeoc4 items,
       sumBy pSteelUnknown4 items, sumBy pManTotal4 items, sumBy pManForeign4 items,
       sumBy pManFeoc4 items, sumBy pManUnknown4 items⟩ := by
  induction items with
  | nil => rfl
  | cons x l ih =>
    rw [acc4Of_cons, ih, item4_char]
    simp [Acc4.add, sumBy_cons]

theorem item5_char (x : RawItem) :
    accStep5 Acc5.zero x =
      ⟨indTerm pSteelTotal5 x, indTerm pSteelDom5 x, indTerm pSteelUnk5 x,
       indTerm pManTotal5 x, indTerm pManDom5 x, indTerm pManUnk5 x⟩ := by
  rcases hx : x.line_total with _ | lt
  · simp [accStep5, hx, indTerm, pSteelTotal5, pSteelDom5, pSteelUnk5,
      pManTotal5, pManDom5, pManUnk5, priced, Acc5.zero]
  · cases hb : classifyFeocBucket5 x <;>
      simp [accStep5, hx, hb, indTerm, pSteelTotal5, pSteelDom5, pSteelUnk5,
        pManTotal5, pManDom5, pManUnk5, priced, isSteel5, isMan5, Acc5.zero]

theorem acc5_char (items : List RawItem) :
    acc5Of items =
      ⟨sumBy pSteelTotal5 items, sumBy pSteelDom5 items, sumBy pSteelUnk5 items,
       sumBy pManTotal5 items, sumBy pManDom5 items, sumBy pManUnk5 items⟩ := by
  induction items with
  | nil => rfl
  | cons x l ih =>
    rw [acc5Of_cons, ih, item5_char]
    simp [Acc5.add, sumBy_cons]

theorem indTerm_nonneg (p : RawItem → Bool) (x : RawItem)
    (h : 0 ≤ x.line_total.getD 0) : 0 ≤ indTerm p x := by
  unfold indTerm
  split
  · exact h
  · exact le_refl 0

theorem sumBy_nonneg (p : RawItem → Bool) (l : List RawItem)
    (h : ∀ x ∈ l, 0 ≤ x.line_total.getD 0) : 0 ≤ sumBy p l := by
  induction l with
  | nil => exact le_refl 0
  | cons x l ih =>
    rw [sumBy_cons]
    have hx := indTerm_nonneg p x (h x (List.mem_cons_self x l))
    have hl := ih (fun y hy => h y (List.mem_cons_of_mem x hy))
    linarith

theorem indTerm_le_indTerm (p q : RawItem → Bool) (x : RawItem)
    (himp : ∀ y, p y = true → q y = true) (h : 0 ≤ x.line_total.getD 0) :
    indTerm p x ≤ indTerm q x := by
  unfold indTerm
  by_cases hp : p x = true
  · rw [if_pos hp, if_pos (himp x hp)]
  · rw [if_neg hp]
    exact indTerm_nonneg q x h

theorem sumBy_le_sumBy (p q : RawItem → Bool) (l : List RawItem)
    (himp : ∀ y, p y = true → q y = true)
    (h : ∀ x ∈ l, 0 ≤ x.line_total.getD 0) : sumBy p l ≤ sumBy q l := by
  induction l with
  | nil => exact le_refl 0
  | cons x l ih =>
    rw [sumBy_cons, sumBy_cons]
    have hx := indTerm_le_indTerm p q x himp (h x (List.mem_cons_self x l))
    have hl := ih (fun y hy => h y (List.mem_cons_of_mem x hy))
    linarith

theorem sumBy_pos_of_mem (p : RawItem → Bool) (l : List RawItem) (x : RawItem)
    (hx : x ∈ l) (hpx : p x = true) (hpos : 0 < x.line_total.getD 0)
    (h : ∀ y ∈ l, 0 ≤ y.line_total.getD 0) : 0 < sumBy p l := by
  induction l with
  | nil => cases hx
  | cons z l ih =>
    rw [sumBy_cons]
    rcases List.mem_cons.mp hx with hz | hmem
    · have h1 : 0 < indTerm p z := by
        subst hz
        rw [indTerm, if_pos hpx]
        exact hpos
      have h2 := sumBy_nonneg p l (fun y hy => h y (List.mem_cons_of_mem z hy))
      linarith
    · have h1 := indTerm_nonneg p z (h z (List.mem_cons_self z l))
      have h2 := ih hmem (fun y hy => h y (List.mem_cons_of_mem z hy))
      linarith

theorem sumBy_split3 (p q r s : RawItem → Bool)
    (h : ∀ x, indTerm p x = indTerm q x + indTerm r x + indTerm s x)
    (l : List RawItem) :
    sumBy p l = sumBy q l + sumBy r l + sumBy s l := by
  induction l with
  | nil => simp [sumBy]
  | cons x l ih =>
    rw [sumBy_cons, sumBy_cons, sumBy_cons, sumBy_cons, ih, h x]
    ring

theorem sumBy_split2 (p q r : RawItem → Bool)
    (h : ∀ x, indTerm p x = indTerm q x + indTerm r x)
    (l : List RawItem) :
    sumBy p l = sumBy q l + sumBy r l := by
  induction l with
  | nil => simp [sumBy]
  | cons x l ih =>
    rw [sumBy_cons, sumBy_cons, sumBy_cons, ih, h x]
    ring

/-- Three-valued AND as the specification words it: false if either operand
is false, null if neither is false but at least one is null, true only if
both are true. -/
def specTriAnd (a b : Option Bool) : Option Bool :=
  if a = some false ∨ b = some false then some false
  else if a = none ∨ b = none then none
  else some true

theorem overallFeocCompliant5_eq_specTriAnd (s m e : Option Bool) :
    overallFeocCompliant5 s m e = specTriAnd (specTriAnd s m) e := by
  revert s m e
  decide

theorem foreign_of_unknown4 (oc : Option String) (isd : Option Bool)
    (h : unknownOrigin4 oc isd = true) : isForeignContent oc isd = true := by
  have h' : originTruthy oc = false ∧ isd = none := by
    simpa [unknownOrigin4] using h
  simp [isForeignContent, h'.1, h'.2]

theorem indTerm_total5_steel (x : RawItem) :
    indTerm pSteelTotal5 x =
      indTerm pSteelDom5 x + indTerm pSteelUnk5 x + indTerm pSteelExpForeign5 x := by
  unfold indTerm pSteelTotal5 pSteelDom5 pSteelUnk5 pSteelExpForeign5
  rcases hd : x.is_domestic with _ | b
  · cases hp : priced x <;> cases hs : isSteel5 x <;> simp [hd]
  · cases b <;> cases hp : priced x <;> cases hs : isSteel5 x <;> simp [hd]

theorem indTerm_total5_man (x : RawItem) :
    indTerm pManTotal5 x =
      indTerm pManDom5 x + indTerm pManUnk5 x + indTerm pManExpForeign5 x := by
  unfold indTerm pManTotal5 pManDom5 pManUnk5 pManExpForeign5
  rcases hd : x.is_domestic with _ | b
  · cases hp : priced x <;> cases hs : isMan5 x <;> simp [hd]
  · cases b <;> cases hp : priced x <;> cases hs : isMan5 x <;> simp [hd]

theorem indTerm_total4_steel (x : RawItem) :
    indTerm pSteelTotal4 x = indTerm pSteelDomShare4 x + indTerm pSteelForeign4 x := by
  unfold indTerm pSteelTotal4 pSteelDomShare4 pSteelForeign4
  cases hp : priced x <;> cases hs : isSteel4 x <;>
    cases hf : isForeignContent x.origin_country x.is_domestic <;> simp [hp, hs, hf]

theorem indTerm_total4_man (x : RawItem) :
    indTerm pManTotal4 x = indTerm pManDomShare4 x + indTerm pManForeign4 x := by
  unfold indTerm pManTotal4 pManDomShare4 pManForeign4
  cases hp : priced x <;> cases hs : isMan4 x <;>
    cases hf : isForeignContent x.origin_country x.is_domestic <;> simp [hp, hs, hf]

/-- C1: counterexample.  A single priced manufactured item of wholly unknown
origin makes the prohibited-origin evaluator count its cost in the foreign
total and in the unknown total at once, so the bucket totals cannot satisfy
total = domestic + foreign + unknown with unknown cost kept out of the
foreign total. -/
theorem c1_counterexample :
    0 < (evaluateFeoc4 (some [⟨some "panel", none, none, none, none, some 100⟩])
          (some 2026) 2026).manufactured_unknown_total ∧
    (evaluateFeoc4 (some [⟨some "panel", none, none, none, none, some 100⟩])
          (some 2026) 2026).manufactured_total <
      (evaluateFeoc4 (some [⟨some "panel", none, none, none, none, some 100⟩])
          (some 2026) 2026).manufactured_foreign_total +
        (evaluateFeoc4 (some [⟨some "panel", none, none, none, none, some 100⟩])
          (some 2026) 2026).manufactured_unknown_total := by
  decide

/-- C1 (amended): in the bonus evaluator each bucket satisfies
total = domesticTotal + unknownTotal + explicitly-non-domestic cost; in the
prohibited-origin evaluator each bucket satisfies
total = domestically-attributed cost + foreignTotal, and every item counted
as wholly unknown is also counted as foreign, so its cost lands in the
foreign total rather than in a separate unknown part. -/
theorem c1_amended (items : List RawItem) :
    (acc5Of items).steel_total =
        (acc5Of items).steel_domestic_total + (acc5Of items).steel_unknown_total +
          sumBy pSteelExpForeign5 items ∧
    (acc5Of items).manufactured_total =
        (acc5Of items).manufactured_domestic_total +
          (acc5Of items).manufactured_unknown_total + sumBy pManExpForeign5 items ∧
    (acc4Of items).steel_total =
        sumBy pSteelDomShare4 items + (acc4Of items).steel_foreign_total ∧
    (acc4Of items).manufactured_total =
        sumBy pManDomShare4 items + (acc4Of items).manufactured_foreign_total ∧
    (∀ oc isd, unknownOrigin4 oc isd = true → isForeignContent oc isd = true) := by
  rw [acc5_char, acc4_char]
  refine ⟨?_, ?_, ?_, ?_, foreign_of_unknown4⟩
  · exact sumBy_split3 _ _ _ _ indTerm_total5_steel items
  · exact sumBy_split3 _ _ _ _ indTerm_total5_man items
  · exact sumBy_split2 _ _ _ indTerm_total4_steel items
  · exact sumBy_split2 _ _ _ indTerm_total4_man items

/-- C1 (witness): the amended theorem applied to the empty item list and to
the wholly-unknown origin pair, discharging its hypothesis. -/
theorem c1_amended_witness : isForeignContent none none = true :=
  (c1_amended []).2.2.2.2 none none (by decide)

theorem pct_isSome {α : Type} (t u : ℚ) (v : α) :
    (if 0 < t then (if 0 < u then none else some v) else (none : Option α)).isSome =
      (decide (0 < t) && decide (u ≤ 0)) := by
  split_ifs with h1 h2
  · simp [h1, not_le.mpr h2]
  · simp [h1, not_lt.mp h2]
  · simp [h1]

/-- C2: counterexample.  With a negative-priced unknown item the bucket
unknown total is negative, hence nonzero, yet the bonus evaluator still
reports a concrete domestic percentage, so a bucket percentage can be a
number without the unknown total being exactly zero. -/
theorem c2_counterexample :
    (evaluateFeoc5 (some [⟨none, some "racking", none, none, some true, some 100⟩,
        ⟨none, some "racking", none, none, none, some (-40)⟩])
        (some 2026) none none none 2026).steel_domestic_percent = some 167 ∧
    (evaluateFeoc5 (some [⟨none, some "racking", none, none, some true, some 100⟩,
        ⟨none, some "racking", none, none, none, some (-40)⟩])
        (some 2026) none none none 2026).steel_unknown_total = -40 := by
  decide

/-- C2 (amended): in both evaluators a bucket percentage is null whenever
the bucket unknown total is positive, and it is a concrete number exactly
when the bucket total is positive and the bucket unknown total is not
positive (for nonnegative line totals this means the unknown total is
zero). -/
theorem c2_amended (items : List RawItem) (iy : Option ℚ) (cur : ℚ)
    (mw : Option ℚ) (cd : Option ℤ) (pw : Option Bool) :
    ((evaluateFeoc4 (some items) iy cur).steel_foreign_percent.isSome =
        (decide (0 < (acc4Of items).steel_total) &&
          decide ((acc4Of items).steel_unknown_total ≤ 0))) ∧
    ((evaluateFeoc4 (some items) iy cur).manufactured_foreign_percent.isSome =
        (decide (0 < (acc4Of items).manufactured_total) &&
          decide ((acc4Of items).manufactured_unknown_total ≤ 0))) ∧
    ((evaluateFeoc5 (some items) iy mw cd pw cur).steel_domestic_percent.isSome =
        (decide (0 < (acc5Of items).steel_total) &&
          decide ((acc5Of items).steel_unknown_total ≤ 0))) ∧
    ((evaluateFeoc5 (some items) iy mw cd pw cur).manufactured_domestic_percent.isSome =
        (decide (0 < (acc5Of items).manufactured_total) &&
          decide ((acc5Of items).manufactured_unknown_total ≤ 0))) := by
  refine ⟨?_, ?_, ?_, ?_⟩ <;>
    simp only [evaluateFeoc4, evaluateFeoc5, resultOfAcc4, resultOfAcc5, Option.getD] <;>
    exact pct_isSome _ _ _

/-- C3: counterexample.  A priced item with origin country US but absent
is_domestic is attributed to the unknown total, not the domestic total, by
the bonus evaluator, whose accumulation reads only is_domestic. -/
theorem c3_counterexample :
    (evaluateFeoc5 (some [⟨some "panel", none, none, some "US", none, some 100⟩])
        (some 2026) none none none 2026).manufactured_domestic_total = 0 ∧
    (evaluateFeoc5 (some [⟨some "panel", none, none, some "US", none, some 100⟩])
        (some 2026) none none none 2026).manufactured_unknown_total = 100 := by
  decide

/-- C3 (amended): in the prohibited-origin evaluator a priced item is
attributed domestic (kept out of the foreign total) exactly when its origin
country upper-cases to US or is_domestic is explicitly true; in the bonus
evaluator a priced item is added to the bucket domestic total exactly when
is_domestic is explicitly true and to the unknown total exactly when
is_domestic is absent — the origin country is ignored there, so a US-origin
item without is_domestic counts as unknown. -/
theorem c3_amended :
    (∀ oc isd, isForeignContent oc isd = false ↔ (usOriginB oc = true ∨ isd = some true)) ∧
    (∀ items : List RawItem,
      (acc5Of items).steel_domestic_total = sumBy pSteelDom5 items ∧
      (acc5Of items).manufactured_domestic_total = sumBy pManDom5 items ∧
      (acc5Of items).steel_unknown_total = sumBy pSteelUnk5 items ∧
      (acc5Of items).manufactured_unknown_total = sumBy pManUnk5 items) := by
  constructor
  · intro oc isd
    by_cases hc : usOriginB oc = true
    · have hc' := hc
      unfold usOriginB at hc'
      simp [isForeignContent, hc', hc]
    · have hc' : (originTruthy oc && (upperChars (oc.getD "") == "US".data)) = false := by
        simpa [usOriginB] using hc
      by_cases hd : isd = some true
      · simp [isForeignContent, hc', hc, hd]
      · simp [isForeignContent, hc', hc, hd]
  · intro items
    rw [acc5_char]
    exact ⟨rfl, rfl, rfl, rfl⟩

theorem pct_none_of_upos {α : Type} (t u : ℚ) (v : α) (hu : 0 < u) :
    (if 0 < t then (if 0 < u then none else some v) else (none : Option α)) = none := by
  by_cases h1 : 0 < t
  · rw [if_pos h1, if_pos hu]
  · rw [if_neg h1]

theorem overall_none : ∀ s m e : Option Bool, (s = none ∨ m = none) →
    s ≠ some false → m ≠ some false → e ≠ some false →
    overallFeocCompliant5 s m e = none := by
  decide

/-- C4: counterexample.  An input that contains a priced item (line total 0)
of unknown domestic status, with no false conjunct, still yields overall
compliance true rather than null: a zero line total leaves the unknown
total at zero, so the percentages stay concrete. -/
theorem c4_counterexample :
    (⟨none, some "racking", none, none, none, some 0⟩ : RawItem).line_total.isSome = true ∧
    (⟨none, some "racking", none, none, none, some 0⟩ : RawItem).is_domestic = none ∧
    (evaluateFeoc5 (some [⟨none, some "racking", none, none, some true, some 100⟩,
        ⟨none, some "racking", none, none, none, some 0⟩,
        ⟨some "panel", none, none, none, some true, some 100⟩])
        (some 2026) (some (1/2)) none none 2026).steelIronCompliant ≠ some false ∧
    (evaluateFeoc5 (some [⟨none, some "racking", none, none, some true, some 100⟩,
        ⟨none, some "racking", none, none, none, some 0⟩,
        ⟨some "panel", none, none, none, some true, some 100⟩])
        (some 2026) (some (1/2)) none none 2026).manufacturedProductsCompliant ≠ some false ∧
    (evaluateFeoc5 (some [⟨none, some "racking", none, none, some true, some 100⟩,
        ⟨none, some "racking", none, none, none, some 0⟩,
        ⟨some "panel", none, none, none, some true, some 100⟩])
        (some 2026) (some (1/2)) none none 2026).projectEligible ≠ some false ∧
    (evaluateFeoc5 (some [⟨none, some "racking", none, none, some true, some 100⟩,
        ⟨none, some "racking", none, none, none, some 0⟩,
        ⟨some "panel", none, none, none, some true, some 100⟩])
        (some 2026) (some (1/2)) none none 2026).feocCompliant = some true := by
  decide

/-- C4 (amended): overall regime compliance of the bonus evaluator is the
three-valued AND of steel compliance, manufactured compliance and
eligibility (false dominating, then null); and an input whose priced items
all have nonnegative line totals, containing an item of unknown domestic
status with positive line total, with no false conjunct, yields overall
compliance null, never false. -/
theorem c4_amended (items : List RawItem) (iy mw : Option ℚ) (cd : Option ℤ)
    (pw : Option Bool) (cur : ℚ) :
    (evaluateFeoc5 (some items) iy mw cd pw cur).feocCompliant =
      specTriAnd
        (specTriAnd (evaluateFeoc5 (some items) iy mw cd pw cur).steelIronCompliant
          (evaluateFeoc5 (some items) iy mw cd pw cur).manufacturedProductsCompliant)
        (evaluateFeoc5 (some items) iy mw cd pw cur).projectEligible ∧
    (∀ (it : RawItem) (lt : ℚ), it ∈ items → it.is_domestic = none →
      it.line_total = some lt → 0 < lt →
      (∀ y ∈ items, 0 ≤ y.line_total.getD 0) →
      (evaluateFeoc5 (some items) iy mw cd pw cur).steelIronCompliant ≠ some false →
      (evaluateFeoc5 (some items) iy mw cd pw cur).manufacturedProductsCompliant ≠ some false →
      (evaluateFeoc5 (some items) iy mw cd pw cur).projectEligible ≠ some false →
      (evaluateFeoc5 (some items) iy mw cd pw cur).feocCompliant = none) := by
  have hfc : (evaluateFeoc5 (some items) iy mw cd pw cur).feocCompliant =
      overallFeocCompliant5 (evaluateFeoc5 (some items) iy mw cd pw cur).steelIronCompliant
        (evaluateFeoc5 (some items) iy mw cd pw cur).manufacturedProductsCompliant
        (evaluateFeoc5 (some items) iy mw cd pw cur).projectEligible := rfl
  constructor
  · rw [hfc, overallFeocCompliant5_eq_specTriAnd]
  · intro it lt hmem hdom hlt hpos hnn hs hm he
    have hgetd : 0 < it.line_total.getD 0 := by simpa [hlt] using hpos
    have hbuckets : (evaluateFeoc5 (some items) iy mw cd pw cur).steelIronCompliant = none ∨
        (evaluateFeoc5 (some items) iy mw cd pw cur).manufacturedProductsCompliant = none := by
      cases hb : classifyFeocBucket5 it
      · left
        have hu : 0 < (acc5Of items).steel_unknown_total := by
          rw [acc5_char]
          exact sumBy_pos_of_mem _ items it hmem
            (by simp [pSteelUnk5, priced, isSteel5, hlt, hb, hdom]) hgetd hnn
        have hpct : (evaluateFeoc5 (some items) iy mw cd pw cur).steel_domestic_percent = none := by
          have hshape : (evaluateFeoc5 (some items) iy mw cd pw cur).steel_domestic_percent =
              (if 0 < (acc5Of items).steel_total then
                (if 0 < (acc5Of items).steel_unknown_total then none
                 else some (round ((acc5Of items).steel_domestic_total /
                   (acc5Of items).steel_total * 100)))
               else none) := rfl
          rw [hshape]
          exact pct_none_of_upos _ _ _ hu
        have hsc : (evaluateFeoc5 (some items) iy mw cd pw cur).steelIronCompliant =
            (match (evaluateFeoc5 (some items) iy mw cd pw cur).steel_domestic_percent with
             | none => (none : Option Bool)
             | some p => some (decide (100 ≤ p))) := rfl
        rw [hpct] at hsc
        exact hsc
      · right
        have hu : 0 < (acc5Of items).manufactured_unknown_total := by
          rw [acc5_char]
          exact sumBy_pos_of_mem _ items it hmem
            (by simp [pManUnk5, priced, isMan5, hlt, hb, hdom]) hgetd hnn
        have hpct : (evaluateFeoc5 (some items) iy mw cd pw cur).manufactured_domestic_percent
            = none := by
          have hshape : (evaluateFeoc5 (some items) iy mw cd pw cur).manufactured_domestic_percent =
              (if 0 < (acc5Of items).manufactured_total then
                (if 0 < (acc5Of items).manufactured_unknown_total then none
                 else some (round ((acc5Of items).manufactured_domestic_total /
                   (acc5Of items).manufactured_total * 100)))
               else none) := rfl
          rw [hshape]
          exact pct_none_of_upos _ _ _ hu
        have hmc : (evaluateFeoc5 (some items) iy mw cd pw cur).manufacturedProductsCompliant =
            (match (evaluateFeoc5 (some items) iy mw cd pw cur).manufactured_domestic_percent with
             | none => (none : Option Bool)
             | some p => some (decide (getRequiredManufacturedDomesticPercent (iy.getD cur) ≤ p))) :=
          rfl
        rw [hpct] at hmc
        exact hmc
    rw [hfc]
    exact overall_none _ _ _ hbuckets hs hm he

/-- C4 (witness): the amended theorem applied to a one-item list with a
positively priced item of unknown domestic status and a small-project
configuration, discharging every hypothesis. -/
theorem c4_amended_witness :
    (evaluateFeoc5 (some [⟨some "panel", none, none, none, none, some 100⟩])
      (some 2026) (some (1/2)) none none 2026).feocCompliant = none :=
  (c4_amended [⟨some "panel", none, none, none, none, some 100⟩]
      (some 2026) (some (1/2)) none none 2026).2
    ⟨some "panel", none, none, none, none, some 100⟩ 100 (by decide) rfl rfl (by norm_num)
    (by decide) (by decide) (by decide) (by decide)

theorem and3_left (a b c : Bool) (h : (a && b && c) = true) : (a && b) = true := by
  cases a <;> cases b <;> cases c <;> simp_all

theorem toFixed2_le_100 (x : ℚ) (h : x ≤ 100) : toFixed2 x ≤ 100 := by
  unfold toFixed2
  have h1 : round (x * 100) ≤ round ((10000 : ℚ)) := by
    rw [round_eq, round_eq]
    exact Int.floor_le_floor (by linarith)
  have h2 : round ((10000 : ℚ)) = 10000 := by
    have : ((10000 : ℤ) : ℚ) = (10000 : ℚ) := by norm_num
    rw [← this, round_intCast]
  have h3 : ((round (x * 100) : ℤ) : ℚ) ≤ 10000 := by
    exact_mod_cast h1.trans_eq h2
  linarith

/-- C5: counterexample.  With installation year 2024 (below the threshold)
but a negative-priced domestic item alongside concern-origin cost, the
concern percentage exceeds 100, so the prohibited-origin evaluator reports
non-compliance even below the threshold year. -/
theorem c5_counterexample :
    (evaluateFeoc4 (some [⟨some "panel", none, none, some "CN", none, some 200⟩,
        ⟨some "panel", none, none, some "US", none, some (-100)⟩])
        (some 2024) 2024).feocCompliant = false := by
  decide

/-- C5 (amended): for any installation year strictly below 2026 and any
item list whose line totals are all nonnegative, the prohibited-origin
evaluator reports compliance, regardless of concern-origin content. -/
theorem c5_amended (items : List RawItem) (y cur : ℚ) (hy : y < 2026)
    (hnn : ∀ x ∈ items, 0 ≤ x.line_total.getD 0) :
    (evaluateFeoc4 (some items) (some y) cur).feocCompliant = true := by
  have hshape : (evaluateFeoc4 (some items) (some y) cur).feocCompliant =
      decide ((if 0 < (acc4Of items).steel_total + (acc4Of items).manufactured_total then
          toFixed2 (((acc4Of items).steel_feoc_total + (acc4Of items).manufactured_feoc_total) /
            ((acc4Of items).steel_total + (acc4Of items).manufactured_total) * 100)
        else 0) ≤ getMaxAllowedFEOCPercent y) := rfl
  have hmax : getMaxAllowedFEOCPercent y = 100 := by
    simp [getMaxAllowedFEOCPercent, not_le.mpr hy]
  rw [hshape, hmax]
  simp only [decide_eq_true_eq]
  by_cases hT : 0 < (acc4Of items).steel_total + (acc4Of items).manufactured_total
  · rw [if_pos hT]
    apply toFixed2_le_100
    have h1 : (acc4Of items).steel_feoc_total ≤ (acc4Of items).steel_total := by
      rw [acc4_char]
      exact sumBy_le_sumBy _ _ items (fun z hz => and3_left _ _ _ hz) hnn
    have h2 : (acc4Of items).manufactured_feoc_total ≤ (acc4Of items).manufactured_total := by
      rw [acc4_char]
      exact sumBy_le_sumBy _ _ items (fun z hz => and3_left _ _ _ hz) hnn
    have hFT : (acc4Of items).steel_feoc_total + (acc4Of items).manufactured_feoc_total ≤
        (acc4Of items).steel_total + (acc4Of items).manufactured_total :=
      add_le_add h1 h2
    calc ((acc4Of items).steel_feoc_total + (acc4Of items).manufactured_feoc_total) /
          ((acc4Of items).steel_total + (acc4Of items).manufactured_total) * 100
        ≤ 1 * 100 := by
          apply mul_le_mul_of_nonneg_right _ (by norm_num)
          exact (div_le_one hT).mpr hFT
      _ = 100 := by norm_num
  · rw [if_neg hT]
    norm_num

/-- C5 (witness): the amended theorem applied to a single concern-origin
item with installation year 2024, discharging both hypotheses. -/
theorem c5_amended_witness :
    (evaluateFeoc4 (some [⟨some "panel", none, none, some "CN", none, some 200⟩])
      (some 2024) 2024).feocCompliant = true :=
  c5_amended [⟨some "panel", none, none, some "CN", none, some 200⟩] 2024 2024
    (by norm_num) (by decide)

/-- C6: eligibility is the tri-path OR of small project (under one
megawatt), early construction (before the fixed cutoff date) and prevailing
wage: true when some path is explicitly true, false exactly when all three
are explicitly false, and in particular true whenever maxNetOutputMW is
below one, whatever the other paths. -/
theorem c6_theorem (items : Option (List RawItem)) (iy : Option ℚ) (mw : Option ℚ)
    (cd : Option ℤ) (pw : Option Bool) (cur : ℚ) :
    ((evaluateFeoc5 items iy mw cd pw cur).eligible = some true ↔
      ((∃ q, mw = some q ∧ q < 1) ∨ (∃ d, cd = some d ∧ d < jan29_2023) ∨ pw = some true)) ∧
    ((evaluateFeoc5 items iy mw cd pw cur).eligible = some false ↔
      ((∃ q, mw = some q ∧ ¬ q < 1) ∧ (∃ d, cd = some d ∧ ¬ d < jan29_2023) ∧
        pw = some false)) ∧
    (∀ q, mw = some q → q < 1 →
      (evaluateFeoc5 items iy mw cd pw cur).eligible = some true) := by
  have hel : (evaluateFeoc5 items iy mw cd pw cur).eligible =
      eligibleOf (eligibilityOf mw cd pw) := rfl
  have h1 : eligibleOf (eligibilityOf mw cd pw) = some true ↔
      ((∃ q, mw = some q ∧ q < 1) ∨ (∃ d, cd = some d ∧ d < jan29_2023) ∨
        pw = some true) := by
    rcases mw with _ | q <;> rcases cd with _ | d <;> rcases pw with _ | b <;>
      [skip; skip; skip; skip; skip; skip; skip; skip] <;>
      (try cases b) <;> (try by_cases hq : q < 1) <;> (try by_cases hd2 : d < jan29_2023) <;>
      simp [eligibleOf, eligibilityOf, *]
  have h2 : eligibleOf (eligibilityOf mw cd pw) = some false ↔
      ((∃ q, mw = some q ∧ ¬ q < 1) ∧ (∃ d, cd = some d ∧ ¬ d < jan29_2023) ∧
        pw = some false) := by
    rcases mw with _ | q <;> rcases cd with _ | d <;> rcases pw with _ | b <;>
      [skip; skip; skip; skip; skip; skip; skip; skip] <;>
      (try cases b) <;> (try by_cases hq : q < 1) <;> (try by_cases hd2 : d < jan29_2023) <;>
      simp [eligibleOf, eligibilityOf, *]
    exact ⟨not_lt.mp hq, not_lt.mp hd2⟩
  refine ⟨hel ▸ h1, hel ▸ h2, ?_⟩
  intro q hmw hq
  rw [hel]
  exact h1.mpr (Or.inl ⟨q, hmw, hq⟩)

/-- C6 (witness): eligibility is true for a half-megawatt project even with
prevailing wage explicitly false, via the theorem's third component. -/
theorem c6_theorem_witness :
    (evaluateFeoc5 none none (some (1/2)) none (some false) 0).eligible = some true :=
  (c6_theorem none none (some (1/2)) none (some false) 0).2.2 (1/2) rfl (by norm_num)

/-- C7: an item whose line total does not resolve to a number contributes
nothing at all: removing it from any position of the item list leaves both
evaluators' entire results unchanged. -/
theorem c7_theorem (pre post : List RawItem) (it : RawItem) (iy : Option ℚ)
    (cur : ℚ) (mw : Option ℚ) (cd : Option ℤ) (pw : Option Bool)
    (h : it.line_total = none) :
    evaluateFeoc4 (some (pre ++ it :: post)) iy cur =
      evaluateFeoc4 (some (pre ++ post)) iy cur ∧
    evaluateFeoc5 (some (pre ++ it :: post)) iy mw cd pw cur =
      evaluateFeoc5 (some (pre ++ post)) iy mw cd pw cur := by
  have hstep4 : ∀ a : Acc4, accStep4 a it = a := by
    intro a
    simp [accStep4, h]
  have hstep5 : ∀ a : Acc5, accStep5 a it = a := by
    intro a
    simp [accStep5, h]
  have hacc4 : acc4Of (pre ++ it :: post) = acc4Of (pre ++ post) := by
    simp [acc4Of, List.foldl_append, List.foldl_cons, hstep4]
  have hacc5 : acc5Of (pre ++ it :: post) = acc5Of (pre ++ post) := by
    simp [acc5Of, List.foldl_append, List.foldl_cons, hstep5]
  have hparts : feocPartsOf (pre ++ it :: post) = feocPartsOf (pre ++ post) := by
    simp [feocPartsOf, List.filterMap_append, List.filterMap_cons, h]
  constructor
  · show resultOfAcc4 (acc4Of (pre ++ it :: post)) (feocPartsOf (pre ++ it :: post))
        (iy.getD cur) =
      resultOfAcc4 (acc4Of (pre ++ post)) (feocPartsOf (pre ++ post)) (iy.getD cur)
    rw [hacc4, hparts]
  · show resultOfAcc5 (acc5Of (pre ++ it :: post)) (iy.getD cur) mw cd pw =
      resultOfAcc5 (acc5Of (pre ++ post)) (iy.getD cur) mw cd pw
    rw [hacc5]

/-- C7 (witness): the theorem applied to a singleton list holding one
unpriced item, which evaluates like the empty list in both evaluators. -/
theorem c7_theorem_witness :
    evaluateFeoc4 (some [(⟨none, none, none, none, none, none⟩ : RawItem)])
        (some 2026) 2026 = evaluateFeoc4 (some []) (some 2026) 2026 ∧
    evaluateFeoc5 (some [(⟨none, none, none, none, none, none⟩ : RawItem)])
        (some 2026) none none none 2026 =
      evaluateFeoc5 (some []) (some 2026) none none none 2026 :=
  c7_theorem [] [] ⟨none, none, none, none, none, none⟩ (some 2026) 2026 none none none rfl

/-- C8: counterexample.  The item named purlin is classified SteelIron by
the prohibited-origin module but Manufactured by the bonus module: the two
duplicate modules do not implement the same rule table, and the bonus
module's table lacks the purlin keyword the claim lists. -/
theorem c8_counterexample :
    classifyFeocBucket4 ⟨some "purlin", none, none, none, none, none⟩ = Bucket.steel_iron ∧
    classifyFeocBucket5 ⟨some "purlin", none, none, none, none, none⟩ = Bucket.manufactured := by
  decide

/-- C8 (amended): each classifier assigns SteelIron exactly when the
lower-cased name/type text matches a word-bounded keyword of its own table;
the prohibited-origin table contains all the keywords the claim lists
(racking, rail, mount, bracket, fastener, clamp, anchor, purlin, stringer,
torque tube), while the bonus module's shorter table omits fastener,
anchor, purlin, stringer and torque tube; both default every non-matching
item, including items with absent name and type, to Manufactured. -/
theorem c8_amended :
    (∀ it : RawItem, classifyFeocBucket4 it = Bucket.steel_iron ↔
      steelIronTest steelIronKeywords4
        (lowerChars (it.name.getD "") ++ ' ' :: lowerChars (it.type.getD "")) = true) ∧
    (∀ it : RawItem, classifyFeocBucket5 it = Bucket.steel_iron ↔
      (steelIronTest steelIronKeywords5 (lowerChars (it.type.getD "")) ||
        steelIronTest steelIronKeywords5 (lowerChars (it.name.getD ""))) = true) ∧
    ("racking" ∈ steelIronKeywords4 ∧ "rail" ∈ steelIronKeywords4 ∧
      "mount" ∈ steelIronKeywords4 ∧ "bracket" ∈ steelIronKeywords4 ∧
      "fastener" ∈ steelIronKeywords4 ∧ "clamp" ∈ steelIronKeywords4 ∧
      "anchor" ∈ steelIronKeywords4 ∧ "purlin" ∈ steelIronKeywords4 ∧
      "stringer" ∈ steelIronKeywords4 ∧ "torque tube" ∈ steelIronKeywords4) ∧
    ("fastener" ∉ steelIronKeywords5 ∧ "anchor" ∉ steelIronKeywords5 ∧
      "purlin" ∉ steelIronKeywords5 ∧ "stringer" ∉ steelIronKeywords5 ∧
      "torque tube" ∉ steelIronKeywords5) ∧
    (∀ (sku oc : Option String) (isd : Option Bool) (lt : Option ℚ),
      classifyFeocBucket4 ⟨none, none, sku, oc, isd, lt⟩ = Bucket.manufactured ∧
      classifyFeocBucket5 ⟨none, none, sku, oc, isd, lt⟩ = Bucket.manufactured) := by
  refine ⟨?_, ?_, by decide, by decide, ?_⟩
  · intro it
    by_cases h : steelIronTest steelIronKeywords4
        (lowerChars (it.name.getD "") ++ ' ' :: lowerChars (it.type.getD "")) = true
    · simp [classifyFeocBucket4, h]
    · simp [classifyFeocBucket4, h]
  · intro it
    by_cases h : (steelIronTest steelIronKeywords5 (lowerChars (it.type.getD "")) ||
        steelIronTest steelIronKeywords5 (lowerChars (it.name.getD ""))) = true
    · simp [classifyFeocBucket5, h]
    · simp [classifyFeocBucket5, h]
  · intro sku oc isd lt
    exact ⟨rfl, rfl⟩

/-- C9: counterexample.  When items is not a list both evaluators return the
ordinary structured result of the empty item list — complete with totals,
percentages and compliance verdicts — rather than raising any error. -/
theorem c9_counterexample :
    evaluateFeoc4 none (some 2026) 2026 = evaluateFeoc4 (some []) (some 2026) 2026 ∧
    (evaluateFeoc4 none (some 2026) 2026).feocCompliant = true ∧
    evaluateFeoc5 none (some 2026) none none none 2026 =
      evaluateFeoc5 (some []) (some 2026) none none none 2026 ∧
    (evaluateFeoc5 none (some 2026) none none none 2026).feocCompliant = none :=
  ⟨rfl, by decide, rfl, by decide⟩

/-- C9 (amended): the evaluators never raise: a non-list items value is
normalized to the empty list and produces the ordinary structured result,
and bad data such as a priced item with missing origin yields a structured
result with explicit null percentages. -/
theorem c9_amended (iy : Option ℚ) (cur : ℚ) (mw : Option ℚ) (cd : Option ℤ)
    (pw : Option Bool) :
    evaluateFeoc4 none iy cur = evaluateFeoc4 (some []) iy cur ∧
    evaluateFeoc5 none iy mw cd pw cur = evaluateFeoc5 (some []) iy mw cd pw cur ∧
    (∀ oc : Option String,
      (evaluateFeoc5 (some [⟨none, none, none, oc, none, some 1⟩]) iy mw cd pw
          cur).manufactured_domestic_percent = none) ∧
    (evaluateFeoc4 (some [⟨none, none, none, none, none, some 1⟩]) iy
        cur).manufactured_foreign_percent = none := by
  refine ⟨rfl, rfl, ?_, ?_⟩
  · intro oc
    have hcl : classifyFeocBucket5 ⟨none, none, none, oc, none, some 1⟩ =
        Bucket.manufactured := rfl
    have hacc : acc5Of [⟨none, none, none, oc, none, some 1⟩] = ⟨0, 0, 0, 1, 0, 1⟩ := by
      simp [acc5Of, accStep5, hcl, Acc5.zero]
    have hshape : (evaluateFeoc5 (some [⟨none, none, none, oc, none, some 1⟩]) iy mw cd pw
        cur).manufactured_domestic_percent =
        (if 0 < (acc5Of [⟨none, none, none, oc, none, some 1⟩]).manufactured_total then
          (if 0 < (acc5Of [⟨none, none, none, oc, none, some 1⟩]).manufactured_unknown_total
            then none
           else some (round
            ((acc5Of [⟨none, none, none, oc, none, some 1⟩]).manufactured_domestic_total /
              (acc5Of [⟨none, none, none, oc, none, some 1⟩]).manufactured_total * 100)))
         else none) := rfl
    rw [hshape, hacc]
    norm_num
  · have hshape : (evaluateFeoc4 (some [⟨none, none, none, none, none, some 1⟩]) iy
        cur).manufactured_foreign_percent =
        (if 0 < (acc4Of [⟨none, none, none, none, none, some 1⟩]).manufactured_total then
          (if 0 <
              (acc4Of [⟨none, none, none, none, none, some 1⟩]).manufactured_unknown_total
            then none
           else some (toFixed2
            ((acc4Of [⟨none, none, none, none, none, some 1⟩]).manufactured_foreign_total /
              (acc4Of [⟨none, none, none, none, none, some 1⟩]).manufactured_total * 100)))
         else none) := rfl
    rw [hshape]
    norm_num [show acc4Of [(⟨none, none, none, none, none, some 1⟩ : RawItem)] =
      ⟨0, 0, 0, 0, 1, 1, 0, 1⟩ from by decide]

/-- C10: in the prohibited-origin evaluator a priced item counts as foreign
exactly when it is not explicitly domestic (origin not US and is_domestic
not true); a priced wholly-unknown item adds its cost to the bucket foreign
total and the bucket unknown total at once; and the total foreign
percentage is a plain number for every input — the rounded foreign share
whenever total project cost is positive, and zero otherwise. -/
theorem c10_theorem :
    (∀ oc isd, isForeignContent oc isd = true ↔ ¬(usOriginB oc = true ∨ isd = some true)) ∧
    (∀ (a : Acc4) (it : RawItem) (lt : ℚ), it.line_total = some lt →
      (classifyFeocBucket4 it = Bucket.steel_iron →
        (isForeignContent it.origin_country it.is_domestic = true →
          (accStep4 a it).steel_foreign_total = a.steel_foreign_total + lt) ∧
        (unknownOrigin4 it.origin_country it.is_domestic = true →
          (accStep4 a it).steel_foreign_total = a.steel_foreign_total + lt ∧
          (accStep4 a it).steel_unknown_total = a.steel_unknown_total + lt)) ∧
      (classifyFeocBucket4 it = Bucket.manufactured →
        (isForeignContent it.origin_country it.is_domestic = true →
          (accStep4 a it).manufactured_foreign_total = a.manufactured_foreign_total + lt) ∧
        (unknownOrigin4 it.origin_country it.is_domestic = true →
          (accStep4 a it).manufactured_foreign_total = a.manufactured_foreign_total + lt ∧
          (accStep4 a it).manufactured_unknown_total = a.manufactured_unknown_total + lt))) ∧
    (∀ (items : List RawItem) (iy : Option ℚ) (cur : ℚ),
      (evaluateFeoc4 (some items) iy cur).total_foreign_percent =
        (if 0 < (acc4Of items).steel_total + (acc4Of items).manufactured_total then
          toFixed2 (((acc4Of items).steel_foreign_total +
              (acc4Of items).manufactured_foreign_total) /
            ((acc4Of items).steel_total + (acc4Of items).manufactured_total) * 100)
        else 0)) := by
  refine ⟨?_, ?_, ?_⟩
  · intro oc isd
    by_cases hc : usOriginB oc = true
    · have hc' := hc
      unfold usOriginB at hc'
      simp [isForeignContent, hc', hc]
    · have hc' : (originTruthy oc && (upperChars (oc.getD "") == "US".data)) = false := by
        simpa [usOriginB] using hc
      by_cases hd : isd = some true <;> simp [isForeignContent, hc', hc, hd]
  · intro a it lt h
    constructor
    · intro hb
      constructor
      · intro hf
        simp [accStep4, h, hb, hf]
      · intro hu
        have hf := foreign_of_unknown4 _ _ hu
        simp [accStep4, h, hb, hf, hu]
    · intro hb
      constructor
      · intro hf
        simp [accStep4, h, hb, hf]
      · intro hu
        have hf := foreign_of_unknown4 _ _ hu
        simp [accStep4, h, hb, hf, hu]
  · intro items iy cur
    rfl

/-- C10 (witness): the theorem's per-item component applied at the zero
accumulator to a wholly-unknown priced item, discharging every
hypothesis. -/
theorem c10_theorem_witness :
    (accStep4 Acc4.zero
        ⟨some "panel", none, none, none, none, some 100⟩).manufactured_foreign_total =
      Acc4.zero.manufactured_foreign_total + 100 ∧
    (accStep4 Acc4.zero
        ⟨some "panel", none, none, none, none, some 100⟩).manufactured_unknown_total =
      Acc4.zero.manufactured_unknown_total + 100 :=
  ((c10_theorem.2.1 Acc4.zero ⟨some "panel", none, none, none, none, some 100⟩ 100 rfl).2
      (by decide)).2 (by decide)
